import Mathlib

/-!
Verification development for the `plugin-github` webhook plugin.

We shallowly embed the webhook-handling core of `src/plugin.ts`:
the event normalizer (the `switch` in `handleWebhookEvent`, lines 190-236),
the envelope construction (lines 239-258), the dispatch guarded by
`try`/`catch` (lines 260-264), the `getRepoInfo` executor (lines 308-342),
and — modelled from the spec, since the code lives in the external
`@octokit/webhooks` dependency — the HMAC signature verifier.

JavaScript objects are modelled by an inductive `Json` type; JavaScript's
`undefined` (an absent field, or the result of optional chaining on a
missing path) is modelled by `Option.none`, while JSON `null` is the
explicit `Json.null` value.
-/

/-- A JSON value, as delivered in a parsed webhook payload.  Objects keep
their fields in insertion order, as JavaScript objects do. -/
inductive Json where
  | str : String → Json
  | num : Int → Json
  | bool : Bool → Json
  | null : Json
  | arr : List Json → Json
  | obj : List (String × Json) → Json


namespace Json

/-- Property access `o.k` (equivalently `o?.k`) on a parsed JSON value:
looking up a missing key, or any key on a non-object, yields `undefined`,
modelled as `none`. -/
def getField : Json → String → Option Json
  | .obj fields, k => fields.lookup k
  | _, _ => none

/-- Optional-chained path access `o?.k1?.k2?...`, written as a fold so that
it is a definition independent of the normalizer below. -/
def getPath (j : Json) (path : List String) : Option Json :=
  path.foldl (fun acc k => acc.bind (fun v => v.getField k)) (some j)

end Json

/-- The record built for a `pull_request` event (plugin.ts lines 191-203).
Each field is `Option Json`: `none` models a JavaScript `undefined`
produced by a missing (possibly nested) path. -/
structure PullRequestRecord where
  action : Option Json
  prNumber : Option Json
  prTitle : Option Json
  prBody : Option Json
  author : Option Json
  merged : Option Json
  repository : Option Json


/-- One element of the mapped `commits` array of a `push` event
(plugin.ts lines 210-214). -/
structure CommitRecord where
  id : Option Json
  message : Option Json
  author : Option Json


/-- The record built for a `push` event (plugin.ts lines 204-217).
`commits` is `none` when the payload has no `commits` array
(`payload.commits?.map` short-circuits to `undefined`); an empty array
maps to `some []`. -/
structure PushRecord where
  ref : Option Json
  repository : Option Json
  pusher : Option Json
  commits : Option (List CommitRecord)


/-- The record built for a `release` event (plugin.ts lines 218-229). -/
structure ReleaseRecord where
  action : Option Json
  releaseTag : Option Json
  releaseName : Option Json
  releasedBy : Option Json
  repository : Option Json
  releaseBody : Option Json


/-- The normalized event record: one variant per supported event kind. -/
inductive NormalizedRecord where
  | pr : PullRequestRecord → NormalizedRecord
  | push : PushRecord → NormalizedRecord
  | release : ReleaseRecord → NormalizedRecord


/-- The `pull_request` branch of the `switch` (plugin.ts lines 191-203). -/
def normalizePullRequest (payload : Json) : PullRequestRecord where
  action := payload.getField "action"
  prNumber := payload.getField "number"
  prTitle := (payload.getField "pull_request").bind (·.getField "title")
  prBody := (payload.getField "pull_request").bind (·.getField "body")
  author := ((payload.getField "pull_request").bind (·.getField "user")).bind
    (·.getField "login")
  merged := (payload.getField "pull_request").bind (·.getField "merged")
  repository := (payload.getField "repository").bind (·.getField "full_name")

/-- The function mapped over `payload.commits` (plugin.ts lines 210-214). -/
def mkCommitRecord (commit : Json) : CommitRecord where
  id := commit.getField "id"
  message := commit.getField "message"
  author := (commit.getField "author").bind (·.getField "name")

/-- The `push` branch of the `switch` (plugin.ts lines 204-217).
`payload.commits?.map(...)` is `undefined` when `commits` is absent and
maps the array element-wise otherwise. -/
def normalizePush (payload : Json) : PushRecord where
  ref := payload.getField "ref"
  repository := (payload.getField "repository").bind (·.getField "full_name")
  pusher := (payload.getField "pusher").bind (·.getField "name")
  commits :=
    match payload.getField "commits" with
    | some (.arr commits) => some (commits.map mkCommitRecord)
    | _ => none

/-- The `release` branch of the `switch` (plugin.ts lines 218-229). -/
def normalizeRelease (payload : Json) : ReleaseRecord where
  action := payload.getField "action"
  releaseTag := (payload.getField "release").bind (·.getField "tag_name")
  releaseName := (payload.getField "release").bind (·.getField "name")
  releasedBy := ((payload.getField "release").bind (·.getField "author")).bind
    (·.getField "login")
  repository := (payload.getField "repository").bind (·.getField "full_name")
  releaseBody := (payload.getField "release").bind (·.getField "body")

/-- The event-kind dispatch of `handleWebhookEvent` (plugin.ts lines
190-236): the three supported kinds produce a record, the `default`
branch produces none. -/
def normalizeEvent (eventName : String) (payload : Json) :
    Option NormalizedRecord :=
  if eventName = "pull_request" then
    some (.pr (normalizePullRequest payload))
  else if eventName = "push" then
    some (.push (normalizePush payload))
  else if eventName = "release" then
    some (.release (normalizeRelease payload))
  else
    none

/-! ### JSON serialization (`JSON.stringify`)

`handleWebhookEvent` serializes the normalized record with
`JSON.stringify(data)` (plugin.ts lines 245-246).  We model the ECMAScript
`QuoteJSONString` escaping: `"` and `\` get a backslash escape, the five
control characters with short forms use them, the remaining control
characters become `\u00xx`, everything else is copied verbatim.
`undefined` object fields are dropped, as `JSON.stringify` does. -/

/-- Lowercase hexadecimal digit for `n < 16`. -/
def hexDigitChar (n : Nat) : Char :=
  if n < 10 then Char.ofNat (48 + n) else Char.ofNat (87 + n)

/-- The escape sequence `JSON.stringify` emits for one character of a
string value. -/
def escChar (c : Char) : List Char :=
  if c = '"' then ['\\', '"']
  else if c = '\\' then ['\\', '\\']
  else if c = '\x08' then ['\\', 'b']
  else if c = '\x09' then ['\\', 't']
  else if c = '\x0a' then ['\\', 'n']
  else if c = '\x0c' then ['\\', 'f']
  else if c = '\x0d' then ['\\', 'r']
  else if c.toNat < 32 then
    ['\\', 'u', '0', '0', hexDigitChar (c.toNat / 16), hexDigitChar (c.toNat % 16)]
  else [c]

/-- A JSON string literal: quote, escaped characters, quote. -/
def strChars (s : String) : List Char :=
  '"' :: (s.toList.map escChar).flatten ++ ['"']

mutual

/-- Characters of the `JSON.stringify` output for a JSON value. -/
def jsonChars : Json → List Char
  | .str s => strChars s
  | .num n => (toString n).toList
  | .bool b => if b then "true".toList else "false".toList
  | .null => "null".toList
  | .arr l => '[' :: arrChars l ++ [']']
  | .obj l => '\x7b' :: objChars l ++ ['\x7d']

/-- Comma-separated serialization of array elements. -/
def arrChars : List Json → List Char
  | [] => []
  | [j] => jsonChars j
  | j :: j' :: rest => jsonChars j ++ ',' :: arrChars (j' :: rest)

/-- Comma-separated serialization of object fields, in insertion order. -/
def objChars : List (String × Json) → List Char
  | [] => []
  | [(k, v)] => strChars k ++ ':' :: jsonChars v
  | (k, v) :: p :: rest => strChars k ++ ':' :: jsonChars v ++ ',' :: objChars (p :: rest)

end

/-- `JSON.stringify` on a JSON value. -/
def stringifyJson (j : Json) : String :=
  String.mk (jsonChars j)

/-- `JSON.stringify` drops object fields whose value is `undefined`. -/
def dropAbsent (fields : List (String × Option Json)) : List (String × Json) :=
  fields.filterMap (fun p => p.2.map (fun v => (p.1, v)))

/-- The `pull_request` record as the JavaScript object literal of
plugin.ts lines 193-201, in insertion order. -/
def PullRequestRecord.toJson (r : PullRequestRecord) : Json :=
  .obj (dropAbsent [("action", r.action), ("prNumber", r.prNumber),
    ("prTitle", r.prTitle), ("prBody", r.prBody), ("author", r.author),
    ("merged", r.merged), ("repository", r.repository)])

/-- A mapped commit as the object literal of plugin.ts lines 210-214. -/
def CommitRecord.toJson (c : CommitRecord) : Json :=
  .obj (dropAbsent [("id", c.id), ("message", c.message), ("author", c.author)])

/-- The `push` record as the object literal of plugin.ts lines 206-215. -/
def PushRecord.toJson (r : PushRecord) : Json :=
  .obj (dropAbsent [("ref", r.ref), ("repository", r.repository),
    ("pusher", r.pusher),
    ("commits", r.commits.map (fun cs => Json.arr (cs.map CommitRecord.toJson)))])

/-- The `release` record as the object literal of plugin.ts lines 220-227. -/
def ReleaseRecord.toJson (r : ReleaseRecord) : Json :=
  .obj (dropAbsent [("action", r.action), ("releaseTag", r.releaseTag),
    ("releaseName", r.releaseName), ("releasedBy", r.releasedBy),
    ("repository", r.repository), ("releaseBody", r.releaseBody)])

/-- The normalized record `data` as a JSON value. -/
def NormalizedRecord.toJson : NormalizedRecord → Json
  | .pr r => r.toJson
  | .push r => r.toJson
  | .release r => r.toJson

/-- `JSON.stringify(data)`, as used for `content` and `rawMessage`. -/
def NormalizedRecord.stringify (r : NormalizedRecord) : String :=
  stringifyJson r.toJson

/-! ### The webhook handler -/

/-- The inbound webhook event as delivered by `@octokit/webhooks`:
`event.id` is the `x-github-delivery` header, `event.name` the event
kind, `event.payload` the parsed JSON body. -/
structure WebhookEvent where
  id : String
  name : String
  payload : Json

/-- The `UserInputContext` literal of plugin.ts lines 239-249. -/
structure EventContext where
  id : String
  pluginId : String
  type : String
  action : String
  timestamp : Nat
  content : String
  rawMessage : String
  user : String
  helpfulInstruction : String

/-- The platform context literal of plugin.ts lines 252-258.  The response
handler is modelled by the log lines it emits for a response; `metadata`
is the object literal `\x7b payload: data \x7d`, so its values are
normalized records. -/
structure PlatformContext where
  platform : String
  responseHandler : String → List String
  metadata : List (String × NormalizedRecord)

/-- Everything observable that one call of `handleWebhookEvent` does:
the log lines it writes, the `runtime.createEvent` calls it makes, and
whether it finished by throwing. -/
structure HandlerOutcome where
  logs : List String
  dispatches : List (EventContext × PlatformContext)
  threw : Bool

/-- The event context built at plugin.ts lines 239-249. -/
def mkEventContext (eventName : String) (now : Nat) (record : NormalizedRecord)
    (recievedPrompt : String) : EventContext where
  id := "github-" ++ eventName ++ "-" ++ toString now
  pluginId := "plugin-github"
  type := "user_input"
  action := "receive_github_webhook"
  timestamp := now
  content := record.stringify
  rawMessage := record.stringify
  user := "webhook"
  helpfulInstruction :=
    "This is a webhook event payload from Github. " ++ recievedPrompt

/-- The platform context built at plugin.ts lines 252-258. -/
def mkPlatformContext (record : NormalizedRecord) : PlatformContext where
  platform := "github"
  responseHandler := fun _ => ["Response from Github webhook"]
  metadata := [("payload", record)]

/-- `handleWebhookEvent` (plugin.ts lines 186-265).  `now` is the value of
`Date.now()` during this call; `createEventFails` says whether the
`runtime.createEvent` call throws, in which case the `catch` block logs
the error.  Note that the handler reads `event.name` and `event.payload`
but never `event.id`. -/
def handleWebhookEvent (recievedPrompt : String) (createEventFails : Bool)
    (event : WebhookEvent) (now : Nat) : HandlerOutcome :=
  let received := "Received a Github webhook event " ++ event.name
  match normalizeEvent event.name event.payload with
  | none =>
    { logs := [received,
        "Github webhook event " ++ event.name ++ " will not create a runtime event"]
      dispatches := []
      threw := false }
  | some data =>
    let eventContext := mkEventContext event.name now data recievedPrompt
    let platformContext := mkPlatformContext data
    { logs := received ::
        (if createEventFails then ["Error processing GitHub webhook"] else [])
      dispatches := [(eventContext, platformContext)]
      threw := false }

/-- Modelled from the spec: the HTTP acknowledgement is produced by the
`@octokit/webhooks` node middleware, which is outside this repository.
Per §6, a handler that returns without throwing is acknowledged with a
success status. -/
def httpStatus (o : HandlerOutcome) : Nat :=
  if o.threw then 500 else 200

/-! ### The `get_repo_info` executor -/

/-- A JavaScript thrown value: an `Error` object carrying a message, or
any other value, represented by its `String(...)` form. -/
inductive ThrownValue where
  | errorObject : String → ThrownValue
  | otherValue : String → ThrownValue

/-- `err instanceof Error ? err.message : String(err)` (plugin.ts 337). -/
def ThrownValue.message : ThrownValue → String
  | .errorObject m => m
  | .otherValue s => s

/-- The `data` field of a successful `get_repo_info` result
(plugin.ts lines 323-327); `α` is the repository payload returned by
`octokit.repos.get`. -/
structure RepoInfoData (α : Type) where
  content : α
  helpfulInstruction : String

/-- The `PluginResult` shape returned by executors. -/
structure PluginResult (α : Type) where
  success : Bool
  data : Option (RepoInfoData α)
  error : Option String

/-- The `try`/`catch` body of `getRepoInfo` (plugin.ts lines 319-341):
`lookup` is the outcome of the awaited `octokit.repos.get` call, `.ok`
when it resolves and `.error` when it throws. -/
def getRepoInfo {α : Type} (lookup : Except ThrownValue α) : PluginResult α :=
  match lookup with
  | .ok d =>
    { success := true
      data := some
        ⟨d, "This is the information about the Github repository"⟩
      error := none }
  | .error e =>
    { success := false
      data := none
      error := some e.message }

/-! ### Signature verification

The verifier itself lives in the external `@octokit/webhooks` dependency;
plugin.ts lines 103-104 only hand it the secret.  It is therefore
modelled from the spec (§4.1): compute the keyed digest of the exact raw
body bytes, prepend the `sha256=` scheme tag, and compare against the
provided header with a constant-time comparison. -/

/-- Modelled from the spec: `HMAC-SHA256(secret, rawBody)`.  The real
digest is computed by the external webhooks library; following §8, which
asserts that digests of distinct bodies under the same secret are
distinct, the digest is idealized as a collision-free keyed fingerprint
of the body: the secret's code points followed by the raw body bytes. -/
def hmac_sha256 (secret : String) (body : List Nat) : List Nat :=
  (secret.toList.map Char.toNat) ++ body

/-- Modelled from the spec: `"sha256=" + hex(HMAC-SHA256(secret, rawBody))`,
the signature value the verifier computes, as a byte sequence (the hex
rendering is folded into the idealized digest). -/
def computeSignature (secret : String) (body : List Nat) : List Nat :=
  ("sha256=".toList.map Char.toNat) ++ hmac_sha256 secret body

/-- Modelled from the spec: the constant-time comparison (Node's
`crypto.timingSafeEqual` behind a length guard).  Returns the verdict
together with the number of positions inspected: the fold walks the whole
common prefix with no early exit on a mismatch. -/
def ctCompare : List Nat → List Nat → Bool × Nat
  | [], [] => (true, 0)
  | [], _ :: _ => (false, 0)
  | _ :: _, [] => (false, 0)
  | a :: as, b :: bs =>
    let r := ctCompare as bs
    ((a == b) && r.1, r.2 + 1)

/-- Modelled from the spec: `verify(rawBody, secret, providedSignature)`.
An absent header is rejected outright; otherwise the header is compared
against the computed signature in constant time. -/
def verify (body : List Nat) (secret : String)
    (providedSignature : Option (List Nat)) : Bool :=
  match providedSignature with
  | none => false
  | some sig => (ctCompare sig (computeSignature secret body)).1

/-- The constant-time comparison decides equality, and the number of
positions it inspects depends only on the two lengths. -/
theorem ctCompare_eq_and_steps (a b : List Nat) :
    (ctCompare a b).1 = decide (a = b) ∧
      (ctCompare a b).2 = min a.length b.length := by
  induction a generalizing b with
  | nil => cases b <;> simp [ctCompare]
  | cons x xs ih =>
    cases b with
    | nil => simp [ctCompare]
    | cons y ys =>
      obtain ⟨h1, h2⟩ := ih ys
      refine ⟨?_, ?_⟩
      · by_cases hxy : x = y <;>
          simp [ctCompare, h1, List.cons.injEq, hxy]
      · simp [ctCompare, h2, Nat.succ_min_succ]

/-- The idealized digest is injective in the body for a fixed secret. -/
theorem computeSignature_injective (S : String) (B B' : List Nat)
    (h : computeSignature S B = computeSignature S B') : B = B' := by
  unfold computeSignature hmac_sha256 at h
  rw [← List.append_assoc, ← List.append_assoc] at h
  exact List.append_cancel_left h

/-! ### Concrete payloads used by witnesses and counterexamples -/

/-- A `push` payload for branch `main`. -/
def pushPayloadA : Json := .obj [("ref", .str "refs/heads/main")]

/-- A `push` payload for branch `dev`, differing from `pushPayloadA`. -/
def pushPayloadB : Json := .obj [("ref", .str "refs/heads/dev")]

/-- A `push` payload with a field the normalizer does not extract. -/
def pushPayloadC : Json :=
  .obj [("ref", .str "refs/heads/main"), ("zzz", .str "extra")]

/-- The commit of §8's push example. -/
def commitA : Json :=
  .obj [("id", .str "a1"), ("message", .str "init"),
    ("author", .obj [("name", .str "bob")])]

/-- A `push` payload with the single commit `commitA`. -/
def pushPayloadD : Json :=
  .obj [("ref", .str "refs/heads/main"), ("commits", .arr [commitA])]

/-- A sparse `pull_request` payload: only `action` is present. -/
def prPayloadSparse : Json := .obj [("action", .str "opened")]

/-! ### The claims -/

/-- C1: signature verification accepts exactly the correct digest: the
signature computed for the body verifies; a signature computed from any
other body is rejected (the idealized digest is collision-free, as §8
assumes); an absent signature header is rejected; acceptance holds only
for the exact computed signature; and the comparison is constant-time in
that the number of positions it inspects depends only on the lengths of
the two signatures, not on their contents. -/
theorem verify_accepts_exactly_correct_digest (B B' : List Nat) (S : String)
    (sig : List Nat) (hne : B' ≠ B) :
    verify B S (some (computeSignature S B)) = true
  ∧ verify B S (some (computeSignature S B')) = false
  ∧ verify B S none = false
  ∧ (verify B S (some sig) = true ↔ sig = computeSignature S B)
  ∧ (ctCompare sig (computeSignature S B)).2 =
      min sig.length (computeSignature S B).length := by
  have hiff : ∀ s : List Nat,
      verify B S (some s) = true ↔ s = computeSignature S B := by
    intro s
    rw [verify, (ctCompare_eq_and_steps s (computeSignature S B)).1,
      decide_eq_true_eq]
  refine ⟨(hiff _).mpr rfl, ?_, rfl, hiff sig,
    (ctCompare_eq_and_steps sig (computeSignature S B)).2⟩
  cases hval : verify B S (some (computeSignature S B')) with
  | false => rfl
  | true =>
    exact absurd (computeSignature_injective S B' B ((hiff _).mp hval)) hne

/-- Witness for C1 at concrete bodies, secret and header. -/
theorem verify_accepts_exactly_correct_digest_witness :
    verify [1, 2] "s" (some (computeSignature "s" [1, 2])) = true
  ∧ verify [1, 2] "s" (some (computeSignature "s" [3])) = false
  ∧ verify [1, 2] "s" none = false
  ∧ (verify [1, 2] "s" (some [9]) = true ↔ [9] = computeSignature "s" [1, 2])
  ∧ (ctCompare [9] (computeSignature "s" [1, 2])).2 =
      min ([9] : List Nat).length (computeSignature "s" [1, 2]).length :=
  verify_accepts_exactly_correct_digest [1, 2] [3] "s" [9] (by decide)

/-- C2 fails on the code: the envelope identifier is
`github-<event.name>-<Date.now()>` (plugin.ts line 240); the delivery id
`event.id` is never consulted.  Two `push` deliveries carrying the same
delivery id `delivery-1`, handled in the same millisecond, get the same
envelope identifier while their contents differ; and a different delivery
id `delivery-2` leaves the identifier unchanged. -/
theorem envelope_id_ignores_delivery_id_cex :
    ((handleWebhookEvent "" false ⟨"delivery-1", "push", pushPayloadA⟩ 1000).dispatches.map
        (fun p => p.1.id)
      = (handleWebhookEvent "" false ⟨"delivery-1", "push", pushPayloadB⟩ 1000).dispatches.map
        (fun p => p.1.id))
  ∧ ((handleWebhookEvent "" false ⟨"delivery-1", "push", pushPayloadA⟩ 1000).dispatches.map
        (fun p => p.1.content)
      ≠ (handleWebhookEvent "" false ⟨"delivery-1", "push", pushPayloadB⟩ 1000).dispatches.map
        (fun p => p.1.content))
  ∧ ((handleWebhookEvent "" false ⟨"delivery-1", "push", pushPayloadA⟩ 1000).dispatches.map
        (fun p => p.1.id)
      = (handleWebhookEvent "" false ⟨"delivery-2", "push", pushPayloadA⟩ 1000).dispatches.map
        (fun p => p.1.id)) := by
  refine ⟨rfl, ?_, rfl⟩
  decide

/-- C2 amended: the envelope identifier is built from the event kind and
the current timestamp only; the delivery id is not used at all, so the
whole handler outcome is independent of it, and every dispatched envelope
of an event kind handled at time `now` is identified as
`github-<kind>-<now>`. -/
theorem envelope_id_from_kind_and_timestamp (recievedPrompt : String)
    (createEventFails : Bool) (name did did' : String) (payload : Json)
    (now : Nat) (r : NormalizedRecord)
    (h : normalizeEvent name payload = some r) :
    handleWebhookEvent recievedPrompt createEventFails ⟨did, name, payload⟩ now
      = handleWebhookEvent recievedPrompt createEventFails ⟨did', name, payload⟩ now
  ∧ (handleWebhookEvent recievedPrompt createEventFails ⟨did, name, payload⟩ now).dispatches.map
        (fun p => p.1.id)
      = ["github-" ++ name ++ "-" ++ toString now] := by
  refine ⟨rfl, ?_⟩
  simp [handleWebhookEvent, h, mkEventContext]

/-- Witness for the amended C2 at a concrete push delivery. -/
theorem envelope_id_from_kind_and_timestamp_witness :
    handleWebhookEvent "" false ⟨"delivery-1", "push", pushPayloadA⟩ 1000
      = handleWebhookEvent "" false ⟨"delivery-2", "push", pushPayloadA⟩ 1000
  ∧ (handleWebhookEvent "" false ⟨"delivery-1", "push", pushPayloadA⟩ 1000).dispatches.map
        (fun p => p.1.id)
      = ["github-" ++ "push" ++ "-" ++ toString 1000] :=
  envelope_id_from_kind_and_timestamp "" false "push" "delivery-1" "delivery-2"
    pushPayloadA 1000 (.push (normalizePush pushPayloadA)) rfl

/-- C3 fails on the code: the platform context's metadata is the object
literal `\x7b payload: data \x7d` (plugin.ts line 257), so its only key is
`payload`, holding the normalized record — not the original payload, and
neither the delivery id nor the event kind is included.  Concretely, for a
push whose payload carries an extra field `zzz`, the only metadata entry
serializes without that field, differing from the original payload. -/
theorem metadata_only_normalized_record_cex :
    ((handleWebhookEvent "" false ⟨"delivery-1", "push", pushPayloadC⟩ 1000).dispatches.map
        (fun p => p.2.metadata.map Prod.fst))
      = [["payload"]]
  ∧ ((handleWebhookEvent "" false ⟨"delivery-1", "push", pushPayloadC⟩ 1000).dispatches.map
        (fun p => p.2.metadata.map (fun q => NormalizedRecord.stringify q.2)))
      = [[NormalizedRecord.stringify (.push (normalizePush pushPayloadC))]]
  ∧ NormalizedRecord.stringify (.push (normalizePush pushPayloadC))
      ≠ stringifyJson pushPayloadC := by
  refine ⟨rfl, rfl, ?_⟩
  decide

/-- C3 amended: every dispatched envelope carries the platform tag
`github`, a response handler (which logs the consumer's response), and
metadata whose single entry `payload` holds the normalized record. -/
theorem envelope_platform_handler_metadata (recievedPrompt : String)
    (createEventFails : Bool) (event : WebhookEvent) (now : Nat)
    (r : NormalizedRecord)
    (h : normalizeEvent event.name event.payload = some r) :
    (handleWebhookEvent recievedPrompt createEventFails event now).dispatches
      = [(mkEventContext event.name now r recievedPrompt, mkPlatformContext r)]
  ∧ (mkPlatformContext r).platform = "github"
  ∧ (mkPlatformContext r).responseHandler "any response"
      = ["Response from Github webhook"]
  ∧ (mkPlatformContext r).metadata = [("payload", r)] := by
  refine ⟨?_, rfl, rfl, rfl⟩
  simp [handleWebhookEvent, h]

/-- Witness for the amended C3 at a concrete push delivery. -/
theorem envelope_platform_handler_metadata_witness :
    (handleWebhookEvent "" false ⟨"delivery-1", "push", pushPayloadA⟩ 1000).dispatches
      = [(mkEventContext "push" 1000 (.push (normalizePush pushPayloadA)) "",
          mkPlatformContext (.push (normalizePush pushPayloadA)))]
  ∧ (mkPlatformContext (.push (normalizePush pushPayloadA))).platform = "github"
  ∧ (mkPlatformContext (.push (normalizePush pushPayloadA))).responseHandler
        "any response"
      = ["Response from Github webhook"]
  ∧ (mkPlatformContext (.push (normalizePush pushPayloadA))).metadata
      = [("payload", .push (normalizePush pushPayloadA))] :=
  envelope_platform_handler_metadata "" false
    ⟨"delivery-1", "push", pushPayloadA⟩ 1000
    (.push (normalizePush pushPayloadA)) rfl

/-- Auxiliary: a path lookup that already failed stays failed under any
extension — absence propagates, it never raises. -/
theorem getPath_foldl_none (q : List String) :
    q.foldl (fun acc k => acc.bind (fun v => v.getField k))
      (none : Option Json) = none := by
  induction q with
  | nil => rfl
  | cons k q ih => simpa using ih

/-- C4: normalizing a `pull_request` payload yields the record whose seven
fields are exactly the optional-chained lookups of `action`, `number`,
`pull_request.title`, `pull_request.body`, `pull_request.user.login`,
`pull_request.merged` and `repository.full_name`; and a path whose prefix
is already missing yields an absent field (never an error — the
normalizer is a total function). -/
theorem pull_request_normalization_fields (payload : Json) :
    (normalizePullRequest payload).action = payload.getPath ["action"]
  ∧ (normalizePullRequest payload).prNumber = payload.getPath ["number"]
  ∧ (normalizePullRequest payload).prTitle
      = payload.getPath ["pull_request", "title"]
  ∧ (normalizePullRequest payload).prBody
      = payload.getPath ["pull_request", "body"]
  ∧ (normalizePullRequest payload).author
      = payload.getPath ["pull_request", "user", "login"]
  ∧ (normalizePullRequest payload).merged
      = payload.getPath ["pull_request", "merged"]
  ∧ (normalizePullRequest payload).repository
      = payload.getPath ["repository", "full_name"]
  ∧ (∀ p q : List String, payload.getPath p = none →
      payload.getPath (p ++ q) = none) := by
  refine ⟨rfl, rfl, rfl, rfl, rfl, rfl, rfl, ?_⟩
  intro p q h
  rw [Json.getPath, List.foldl_append]
  rw [Json.getPath] at h
  rw [h]
  exact getPath_foldl_none q

/-- Witness for C4: on a payload with only `action`, the missing
`pull_request` prefix makes the extended path absent. -/
theorem pull_request_normalization_fields_witness :
    prPayloadSparse.getPath (["pull_request"] ++ ["title"]) = none :=
  (pull_request_normalization_fields prPayloadSparse).2.2.2.2.2.2.2
    ["pull_request"] ["title"] rfl

/-- C5: when a `push` payload carries a `commits` array, normalization
maps it element-wise through the commit extractor, preserving length and
order (the i-th output is the extraction of the i-th input); in
particular an empty array yields `some []`, present-but-empty rather than
absent. -/
theorem push_commits_elementwise (payload : Json) (l : List Json)
    (h : payload.getField "commits" = some (Json.arr l)) :
    (normalizePush payload).commits = some (l.map mkCommitRecord)
  ∧ (l.map mkCommitRecord).length = l.length
  ∧ (∀ i : Nat, (l.map mkCommitRecord).get? i = (l.get? i).map mkCommitRecord)
  ∧ (l = [] → (normalizePush payload).commits = some []) := by
  refine ⟨?_, List.length_map l mkCommitRecord, ?_, ?_⟩
  · simp [normalizePush, h]
  · intro i
    simp [List.get?_eq_getElem?, List.getElem?_map]
  · intro hl
    simp [normalizePush, h, hl]

/-- Witness for C5: §8's single-commit push payload yields the singleton
sequence extracting that commit. -/
theorem push_commits_elementwise_witness :
    (normalizePush pushPayloadD).commits = some ([commitA].map mkCommitRecord)
  ∧ ([commitA].map mkCommitRecord).length = [commitA].length
  ∧ (∀ i : Nat, ([commitA].map mkCommitRecord).get? i
      = ([commitA].get? i).map mkCommitRecord)
  ∧ ([commitA] = [] → (normalizePush pushPayloadD).commits = some []) :=
  push_commits_elementwise pushPayloadD [commitA] rfl

/-- C7: an event whose kind is none of `pull_request`, `push`, `release`
normalizes to no record, the handler returns before building an envelope
(no dispatch) and without throwing, and the request is still acknowledged
with a success status. -/
theorem unsupported_event_dropped_acknowledged (recievedPrompt : String)
    (createEventFails : Bool) (event : WebhookEvent) (now : Nat)
    (h1 : event.name ≠ "pull_request") (h2 : event.name ≠ "push")
    (h3 : event.name ≠ "release") :
    normalizeEvent event.name event.payload = none
  ∧ (handleWebhookEvent recievedPrompt createEventFails event now).dispatches = []
  ∧ (handleWebhookEvent recievedPrompt createEventFails event now).threw = false
  ∧ httpStatus (handleWebhookEvent recievedPrompt createEventFails event now)
      = 200 := by
  have hn : normalizeEvent event.name event.payload = none := by
    simp [normalizeEvent, h1, h2, h3]
  refine ⟨hn, ?_, ?_, ?_⟩ <;> simp [handleWebhookEvent, hn, httpStatus]

/-- Witness for C7: an `issues` event is dropped but acknowledged. -/
theorem unsupported_event_dropped_acknowledged_witness :
    normalizeEvent "issues" (Json.obj []) = none
  ∧ (handleWebhookEvent "" false ⟨"delivery-7", "issues", Json.obj []⟩ 1000).dispatches = []
  ∧ (handleWebhookEvent "" false ⟨"delivery-7", "issues", Json.obj []⟩ 1000).threw = false
  ∧ httpStatus (handleWebhookEvent "" false ⟨"delivery-7", "issues", Json.obj []⟩ 1000)
      = 200 :=
  unsupported_event_dropped_acknowledged "" false
    ⟨"delivery-7", "issues", Json.obj []⟩ 1000
    (by decide) (by decide) (by decide)

/-- C8: on any request the downstream consumer is dispatched to at most
once, the handler itself never throws (so a dispatch failure is never
propagated to the HTTP caller), and when the dispatch fails the error is
logged inside the handler's catch block. -/
theorem dispatch_at_most_once_errors_caught (recievedPrompt : String)
    (createEventFails : Bool) (event : WebhookEvent) (now : Nat) :
    (handleWebhookEvent recievedPrompt createEventFails event now).dispatches.length ≤ 1
  ∧ (handleWebhookEvent recievedPrompt createEventFails event now).threw = false
  ∧ (createEventFails = true →
      (handleWebhookEvent recievedPrompt createEventFails event now).dispatches ≠ [] →
      "Error processing GitHub webhook"
        ∈ (handleWebhookEvent recievedPrompt createEventFails event now).logs) := by
  cases hn : normalizeEvent event.name event.payload with
  | none => refine ⟨?_, ?_, ?_⟩ <;> simp [handleWebhookEvent, hn]
  | some r =>
    refine ⟨?_, ?_, ?_⟩ <;> simp [handleWebhookEvent, hn]
    intro hf
    simp [hf]

/-- Witness for C8: a failing dispatch on a push event is logged. -/
theorem dispatch_at_most_once_errors_caught_witness :
    "Error processing GitHub webhook"
      ∈ (handleWebhookEvent "" true ⟨"delivery-1", "push", pushPayloadA⟩ 1000).logs :=
  (dispatch_at_most_once_errors_caught "" true
    ⟨"delivery-1", "push", pushPayloadA⟩ 1000).2.2 rfl
    (by simp [handleWebhookEvent, normalizeEvent])

/-- C9: every dispatched envelope has `content` equal to `rawMessage`
(both are `JSON.stringify(data)`), an identifier beginning with
`github-` followed by the event name, and the constant fields
`type = "user_input"`, `action = "receive_github_webhook"`,
`user = "webhook"` and `platform = "github"`. -/
theorem envelope_constant_fields_invariant (recievedPrompt : String)
    (createEventFails : Bool) (event : WebhookEvent) (now : Nat)
    (r : NormalizedRecord)
    (h : normalizeEvent event.name event.payload = some r) :
    (handleWebhookEvent recievedPrompt createEventFails event now).dispatches
      = [(mkEventContext event.name now r recievedPrompt, mkPlatformContext r)]
  ∧ (mkEventContext event.name now r recievedPrompt).content
      = (mkEventContext event.name now r recievedPrompt).rawMessage
  ∧ (mkEventContext event.name now r recievedPrompt).id
      = "github-" ++ event.name ++ "-" ++ toString now
  ∧ (mkEventContext event.name now r recievedPrompt).type = "user_input"
  ∧ (mkEventContext event.name now r recievedPrompt).action
      = "receive_github_webhook"
  ∧ (mkEventContext event.name now r recievedPrompt).user = "webhook"
  ∧ (mkPlatformContext r).platform = "github" := by
  refine ⟨?_, rfl, rfl, rfl, rfl, rfl, rfl⟩
  simp [handleWebhookEvent, h]

/-- Witness for C9 at a concrete push delivery. -/
theorem envelope_constant_fields_invariant_witness :
    (handleWebhookEvent "" false ⟨"delivery-1", "push", pushPayloadB⟩ 1000).dispatches
      = [(mkEventContext "push" 1000 (.push (normalizePush pushPayloadB)) "",
          mkPlatformContext (.push (normalizePush pushPayloadB)))]
  ∧ (mkEventContext "push" 1000 (.push (normalizePush pushPayloadB)) "").content
      = (mkEventContext "push" 1000 (.push (normalizePush pushPayloadB)) "").rawMessage
  ∧ (mkEventContext "push" 1000 (.push (normalizePush pushPayloadB)) "").id
      = "github-" ++ "push" ++ "-" ++ toString 1000
  ∧ (mkEventContext "push" 1000 (.push (normalizePush pushPayloadB)) "").type
      = "user_input"
  ∧ (mkEventContext "push" 1000 (.push (normalizePush pushPayloadB)) "").action
      = "receive_github_webhook"
  ∧ (mkEventContext "push" 1000 (.push (normalizePush pushPayloadB)) "").user
      = "webhook"
  ∧ (mkPlatformContext (.push (normalizePush pushPayloadB))).platform
      = "github" :=
  envelope_constant_fields_invariant "" false
    ⟨"delivery-1", "push", pushPayloadB⟩ 1000
    (.push (normalizePush pushPayloadB)) rfl

/-- C10: the `get_repo_info` executor always resolves.  A lookup that
throws an `Error` yields `success = false`, no data, and the error's
message; a lookup that throws a non-`Error` value yields its string form;
a successful lookup yields `success = true` with the repository data. -/
theorem get_repo_info_resolves_never_rejects (α : Type) (m s : String)
    (d : α) :
    getRepoInfo (α := α) (Except.error (ThrownValue.errorObject m))
      = { success := false, data := none, error := some m }
  ∧ getRepoInfo (α := α) (Except.error (ThrownValue.otherValue s))
      = { success := false, data := none, error := some s }
  ∧ getRepoInfo (Except.ok d)
      = { success := true,
          data := some ⟨d, "This is the information about the Github repository"⟩,
          error := none } :=
  ⟨rfl, rfl, rfl⟩

/-! ### Deserialization of the content string

Modelled from the spec (§4.3): "downstream consumers are expected to
parse it back as structured data", i.e. to apply `JSON.parse` to the
envelope's content string.  The parser below covers the fragment
`JSON.parse` needs for a fully-present release record: a flat object
whose values are strings or `null` (the shape of every field of a GitHub
`release` payload). -/

/-- Value of one hexadecimal digit, lowercase, as in a `\u00xx` escape. -/
def hexDigitVal (c : Char) : Option Nat :=
  if 48 ≤ c.toNat ∧ c.toNat ≤ 57 then some (c.toNat - 48)
  else if 97 ≤ c.toNat ∧ c.toNat ≤ 102 then some (c.toNat - 87)
  else none

/-- Parse the body of a JSON string literal (after the opening quote):
unescape until the closing quote, returning the content and the rest. -/
def parseJString : List Char → Option (List Char × List Char)
  | [] => none
  | '"' :: r => some ([], r)
  | '\\' :: 'u' :: h1 :: h2 :: h3 :: h4 :: r3 =>
    match hexDigitVal h1, hexDigitVal h2, hexDigitVal h3, hexDigitVal h4 with
    | some d1, some d2, some d3, some d4 =>
      (fun p => (Char.ofNat (((d1 * 16 + d2) * 16 + d3) * 16 + d4) :: p.1, p.2))
        <$> parseJString r3
    | _, _, _, _ => none
  | '\\' :: e :: r2 =>
    if e = '"' then (fun p => ('"' :: p.1, p.2)) <$> parseJString r2
    else if e = '\\' then (fun p => ('\\' :: p.1, p.2)) <$> parseJString r2
    else if e = '/' then (fun p => ('/' :: p.1, p.2)) <$> parseJString r2
    else if e = 'b' then (fun p => ('\x08' :: p.1, p.2)) <$> parseJString r2
    else if e = 't' then (fun p => ('\x09' :: p.1, p.2)) <$> parseJString r2
    else if e = 'n' then (fun p => ('\x0a' :: p.1, p.2)) <$> parseJString r2
    else if e = 'f' then (fun p => ('\x0c' :: p.1, p.2)) <$> parseJString r2
    else if e = 'r' then (fun p => ('\x0d' :: p.1, p.2)) <$> parseJString r2
    else none
  | c :: r => (fun p => (c :: p.1, p.2)) <$> parseJString r

/-- Parse one value of the flat-record fragment: a string or `null`. -/
def parseValue : List Char → Option (Json × List Char)
  | '"' :: r => (fun p => (Json.str (String.mk p.1), p.2)) <$> parseJString r
  | 'n' :: 'u' :: 'l' :: 'l' :: r => some (Json.null, r)
  | _ => none

/-- Parse `"key":value` pairs separated by commas up to the closing
brace; `fuel` bounds the number of pairs. -/
def parsePairs : Nat → List Char → Option (List (String × Json) × List Char)
  | 0, _ => none
  | fuel + 1, '"' :: r =>
    match parseJString r with
    | none => none
    | some (k, r1) =>
      match r1 with
      | ':' :: r2 =>
        match parseValue r2 with
        | none => none
        | some (v, r3) =>
          match r3 with
          | ',' :: r4 =>
            (fun p => ((String.mk k, v) :: p.1, p.2)) <$> parsePairs fuel r4
          | '\x7d' :: r4 => some ([(String.mk k, v)], r4)
          | _ => none
      | _ => none
  | _ + 1, _ => none

/-- Parse a whole non-empty flat object, requiring the input to be
consumed exactly. -/
def parseFlatObj (s : String) : Option (List (String × Json)) :=
  match s.toList with
  | '\x7b' :: r =>
    match parsePairs r.length r with
    | some (ps, []) => some ps
    | _ => none
  | _ => none

/-- Is the value a string or `null` (the flat-record fragment)? -/
def isStrOrNull : Json → Bool
  | .str _ => true
  | .null => true
  | _ => false

/-- Modelled from the spec: how a downstream consumer parses the content
string of a release envelope back into the record's fields. -/
def deserializeRelease (s : String) : Option ReleaseRecord :=
  (parseFlatObj s).map (fun ps =>
    { action := ps.lookup "action"
      releaseTag := ps.lookup "releaseTag"
      releaseName := ps.lookup "releaseName"
      releasedBy := ps.lookup "releasedBy"
      repository := ps.lookup "repository"
      releaseBody := ps.lookup "releaseBody" })

/-- `String.mk` inverts `String.toList`. -/
theorem stringMk_toList (s : String) : String.mk s.toList = s := rfl

/-- A lowercase hex digit decodes to its value. -/
theorem hexDigitVal_hexDigitChar : ∀ n : Nat, n < 16 →
    hexDigitVal (hexDigitChar n) = some n := by decide

/-- Unescaping inverts the `JSON.stringify` escaping, up to the closing
quote. -/
theorem parseJString_escape (s : List Char) (rest : List Char) :
    parseJString ((s.map escChar).flatten ++ '"' :: rest) = some (s, rest) := by
  induction s with
  | nil => simp [parseJString]
  | cons c s ih =>
    by_cases h1 : c = '"'
    · subst h1; simp [escChar, parseJString, ih]
    · by_cases h2 : c = '\\'
      · subst h2; simp [escChar, parseJString, ih]
      · by_cases h3 : c = '\x08'
        · subst h3; simp [escChar, parseJString, ih]
        · by_cases h4 : c = '\x09'
          · subst h4; simp [escChar, parseJString, ih]
          · by_cases h5 : c = '\x0a'
            · subst h5; simp [escChar, parseJString, ih]
            · by_cases h6 : c = '\x0c'
              · subst h6; simp [escChar, parseJString, ih]
              · by_cases h7 : c = '\x0d'
                · subst h7; simp [escChar, parseJString, ih]
                · by_cases h8 : c.toNat < 32
                  · have hd1 : c.toNat / 16 < 16 := by omega
                    have hd2 : c.toNat % 16 < 16 := by omega
                    have h0 : hexDigitVal '0' = some 0 := by decide
                    have hchar : c.toNat / 16 * 16 + c.toNat % 16 = c.toNat := by
                      omega
                    simp [escChar, h1, h2, h3, h4, h5, h6, h7, h8, parseJString,
                      h0, hexDigitVal_hexDigitChar _ hd1,
                      hexDigitVal_hexDigitChar _ hd2, ih, hchar,
                      Char.ofNat_toNat]
                  · simp [escChar, h1, h2, h3, h4, h5, h6, h7, h8,
                      parseJString, ih]

/-- Parsing a serialized fragment value succeeds and returns it. -/
theorem parseValue_jsonChars (v : Json) (hv : isStrOrNull v = true)
    (rest : List Char) :
    parseValue (jsonChars v ++ rest) = some (v, rest) := by
  cases v with
  | str s =>
    simp [jsonChars, strChars, parseValue, parseJString_escape,
      stringMk_toList]
  | null => simp [jsonChars, parseValue]
  | num n => simp [isStrOrNull] at hv
  | bool b => simp [isStrOrNull] at hv
  | arr l => simp [isStrOrNull] at hv
  | obj l => simp [isStrOrNull] at hv

/-- The serialized fields are at least as many characters as there are
fields. -/
theorem objChars_length_le (ps : List (String × Json)) :
    ps.length ≤ (objChars ps).length := by
  induction ps with
  | nil => simp [objChars]
  | cons kv ps ih =>
    obtain ⟨k, v⟩ := kv
    cases ps with
    | nil => simp [objChars, strChars]
    | cons kv2 ps2 =>
      simp only [objChars, strChars] at *
      simp only [List.length_append, List.length_cons] at *
      omega

/-- Parsing the serialized pairs of a non-empty fragment object, with
enough fuel, returns exactly those pairs. -/
theorem parsePairs_objChars (ps : List (String × Json)) :
    ∀ (fuel : Nat) (rest : List Char), ps ≠ [] →
      (∀ p ∈ ps, isStrOrNull p.2 = true) → ps.length ≤ fuel →
      parsePairs fuel (objChars ps ++ '\x7d' :: rest) = some (ps, rest) := by
  induction ps with
  | nil => intro fuel rest hne _ _; exact absurd rfl hne
  | cons kv ps ih =>
    intro fuel rest _ hvals hfuel
    obtain ⟨k, v⟩ := kv
    have hv : isStrOrNull v = true := hvals (k, v) (by simp)
    cases fuel with
    | zero => simp at hfuel
    | succ fuel =>
      cases ps with
      | nil =>
        simp [objChars, strChars, parsePairs, parseJString_escape,
          parseValue_jsonChars v hv, stringMk_toList]
      | cons kv2 ps2 =>
        have hrec := ih fuel rest (by simp)
          (fun p hp => hvals p (List.mem_cons_of_mem _ hp))
          (by simp at hfuel ⊢; omega)
        simp [objChars, strChars, parsePairs, parseJString_escape,
          parseValue_jsonChars v hv, stringMk_toList, hrec]

/-- Parsing the `JSON.stringify` output of a non-empty fragment object
recovers the pairs exactly. -/
theorem parseFlatObj_stringify (ps : List (String × Json)) (hne : ps ≠ [])
    (hvals : ∀ p ∈ ps, isStrOrNull p.2 = true) :
    parseFlatObj (stringifyJson (.obj ps)) = some ps := by
  have hp := parsePairs_objChars ps (objChars ps ++ ['\x7d']).length []
    hne hvals (by simp; have := objChars_length_le ps; omega)
  simp only [List.length_append, List.length_cons, List.length_nil] at hp
  simp only [stringifyJson, jsonChars, parseFlatObj, stringMk_toList]
  simp [hp]

/-- §8's release payload: `action="published"`, `release.tag_name="v1.0"`,
`release.name="V1"`, `release.author.login="carol"`, `release.body="notes"`,
`repository.full_name="org/repo"`. -/
def releasePayloadE : Json :=
  .obj [("action", .str "published"),
    ("release", .obj [("tag_name", .str "v1.0"), ("name", .str "V1"),
      ("author", .obj [("login", .str "carol")]), ("body", .str "notes")]),
    ("repository", .obj [("full_name", .str "org/repo")])]

/-- C6: for every release record whose six fields are all present (with
string-or-null values — the shape of every conforming GitHub release
payload), serializing the normalized record to the envelope content
string and deserializing that string yields the same field values; and
the envelope content is exactly that serialization. -/
theorem release_content_round_trip (r : ReleaseRecord)
    (va vb vc vd ve vf : Json)
    (ha : r.action = some va) (hb : r.releaseTag = some vb)
    (hc : r.releaseName = some vc) (hd : r.releasedBy = some vd)
    (he : r.repository = some ve) (hf : r.releaseBody = some vf)
    (pa : isStrOrNull va = true) (pb : isStrOrNull vb = true)
    (pc : isStrOrNull vc = true) (pd : isStrOrNull vd = true)
    (pe : isStrOrNull ve = true) (pf : isStrOrNull vf = true)
    (recievedPrompt : String) (now : Nat) :
    deserializeRelease (NormalizedRecord.stringify (.release r)) = some r
  ∧ (mkEventContext "release" now (.release r) recievedPrompt).content
      = NormalizedRecord.stringify (.release r) := by
  obtain ⟨f1, f2, f3, f4, f5, f6⟩ := r
  dsimp only at ha hb hc hd he hf
  subst ha hb hc hd he hf
  refine ⟨?_, rfl⟩
  have hps := parseFlatObj_stringify
    [("action", va), ("releaseTag", vb), ("releaseName", vc),
      ("releasedBy", vd), ("repository", ve), ("releaseBody", vf)]
    (by simp) (by simp [pa, pb, pc, pd, pe, pf])
  have hjson : ReleaseRecord.toJson
      ⟨some va, some vb, some vc, some vd, some ve, some vf⟩
    = Json.obj [("action", va), ("releaseTag", vb), ("releaseName", vc),
        ("releasedBy", vd), ("repository", ve), ("releaseBody", vf)] := rfl
  simp only [NormalizedRecord.stringify, NormalizedRecord.toJson, hjson,
    deserializeRelease]
  rw [hps]
  simp [List.lookup]

/-- Witness for C6: §8's release payload round-trips. -/
theorem release_content_round_trip_witness :
    deserializeRelease
        (NormalizedRecord.stringify (.release (normalizeRelease releasePayloadE)))
      = some (normalizeRelease releasePayloadE)
  ∧ (mkEventContext "release" 1000
        (.release (normalizeRelease releasePayloadE)) "").content
      = NormalizedRecord.stringify (.release (normalizeRelease releasePayloadE)) :=
  release_content_round_trip (normalizeRelease releasePayloadE)
    (.str "published") (.str "v1.0") (.str "V1") (.str "carol")
    (.str "org/repo") (.str "notes")
    rfl rfl rfl rfl rfl rfl rfl rfl rfl rfl rfl rfl "" 1000
